import Mathlib

/-!
Verification of the cargo-xtest configuration-to-compilation pipeline.

This file gives a shallow embedding, in Lean 4, of the pure computational
core of the repository:

* `src/cargo-xbuild/src/config.rs` — schema/config validation
  (`validate_config`, `load_active_xconfigs`, `ensure_config_toml`),
  the feature mapper (`collect_xconfig_metadata`, `collect_all_metadata`)
  and the generated-file projections (`sync_cargo_config`,
  `sync_vscode_settings`);
* `src/cargo-xbuild/src/wrapper.rs` and the wrapper half of
  `src/xtask/src/main.rs` — the RUSTC_WRAPPER command-line rewriting
  (`wrapper_main`);
* `src/xtask/src/main.rs` — the orchestrator's feature-map serialization
  and the `__xfp` cache-consistency flag (`xtask_main`), including a
  faithful model of `std::collections::hash_map::DefaultHasher`
  (SipHash-1-3 with zero keys);
* `src/xtask/src/resolve.rs` — the extern resolver
  (`resolve_extern_map_from_metadata`).

Rust `HashMap`s are modelled as association lists; where the Rust code
iterates over a `HashMap` (whose iteration order is arbitrary), the
association-list order plays the role of the observed iteration order and
is treated as an explicit input.  File-system reads/writes are modelled by
passing the parsed file contents as values.  Machine integers are `Nat`
with explicit reduction modulo `2 ^ 64` where the Rust code wraps.
-/

/-! ## Generic helpers: association-list maps, splitting, ordering -/

/-- Lookup in an association list (first matching key), modelling
`HashMap::get` for maps with unique keys. -/
def mlookup {κ β : Type} [DecidableEq κ] : List (κ × β) → κ → Option β
  | [], _ => none
  | (k', v) :: rest, k => if k' = k then some v else mlookup rest k

/-- Lookup with a default, for value types with a designated default. -/
def mlookupD {κ β : Type} [DecidableEq κ] (m : List (κ × List β)) (k : κ) : List β :=
  (mlookup m k).getD []

/-- `entry(k).or_default().push(v)` on a `HashMap<κ, Vec<β>>`: append `v`
to the list stored at `k`, inserting `(k, [v])` if `k` is absent. -/
def mapAppend {κ β : Type} [DecidableEq κ] : List (κ × List β) → κ → β → List (κ × List β)
  | [], k, v => [(k, [v])]
  | (k', vs) :: rest, k, v =>
    if k' = k then (k', vs ++ [v]) :: rest else (k', vs) :: mapAppend rest k v

theorem mlookupD_mapAppend {κ β : Type} [DecidableEq κ]
    (m : List (κ × List β)) (k : κ) (v : β) (x : κ) :
    mlookupD (mapAppend m k v) x =
      if x = k then mlookupD m x ++ [v] else mlookupD m x := by
  induction m with
  | nil =>
    simp only [mapAppend, mlookupD, mlookup]
    by_cases hkx : k = x
    · subst hkx
      simp
    · rw [if_neg hkx, if_neg (Ne.symm hkx)]
  | cons p rest ih =>
    obtain ⟨k', vs⟩ := p
    simp only [mapAppend]
    by_cases hk'k : k' = k
    · subst hk'k
      simp only [if_pos rfl, mlookupD, mlookup]
      by_cases hk'x : k' = x
      · subst hk'x
        simp
      · rw [if_neg hk'x, if_neg hk'x, if_neg (Ne.symm hk'x)]
    · rw [if_neg hk'k]
      simp only [mlookupD, mlookup]
      by_cases hk'x : k' = x
      · subst hk'x
        rw [if_pos rfl, if_pos rfl, if_neg (fun h : k' = k => hk'k h)]
      · rw [if_neg hk'x, if_neg hk'x]
        simp only [mlookupD] at ih
        exact ih

theorem mlookupD_nil {κ β : Type} [DecidableEq κ] (x : κ) :
    mlookupD ([] : List (κ × List β)) x = [] := rfl

/-- Rust `str::split_once(c)` on the character list of a string:
split at the first occurrence of `c`. -/
def splitOnceList (c : Char) : List Char → Option (List Char × List Char)
  | [] => none
  | x :: xs =>
    if x = c then some ([], xs)
    else (splitOnceList c xs).map (fun p => (x :: p.1, p.2))

/-- Rust `str::split_once(c)`. -/
def splitOnce (c : Char) (s : String) : Option (String × String) :=
  (splitOnceList c s.toList).map (fun p => (String.mk p.1, String.mk p.2))

/-- Rust `str::split(c)` on a character list: `n` separators yield `n + 1`
pieces, empty pieces included. -/
def splitCharList (c : Char) : List Char → List (List Char)
  | [] => [[]]
  | x :: xs =>
    if x = c then [] :: splitCharList c xs
    else
      match splitCharList c xs with
      | [] => [[x]]
      | y :: ys => (x :: y) :: ys

/-- Rust `str::split(c)`. -/
def splitChar (c : Char) (s : String) : List String :=
  (splitCharList c s.toList).map String.mk

/-- Total lexicographic order on character lists (by code point), a
kernel-reducible model of Rust's `Ord for str` / Lean's string order. -/
def lexLe : List Char → List Char → Bool
  | [], _ => true
  | _ :: _, [] => false
  | a :: as, b :: bs => if a = b then lexLe as bs else decide (a < b)

/-- Lexicographic order on strings. -/
def strLe (s t : String) : Bool := lexLe s.toList t.toList

/-- The order on strings as a proposition, for use with `insertionSort`. -/
def strLeP (s t : String) : Prop := strLe s t = true

instance : DecidableRel strLeP := fun s t => instDecidableEqBool (strLe s t) true

theorem lexLe_total (a b : List Char) : lexLe a b = true ∨ lexLe b a = true := by
  induction a generalizing b with
  | nil => left; rfl
  | cons x xs ih =>
    cases b with
    | nil => right; rfl
    | cons y ys =>
      by_cases hxy : x = y
      · subst hxy
        rcases ih ys with h | h
        · left; simpa [lexLe] using h
        · right; simpa [lexLe] using h
      · rcases lt_or_gt_of_ne hxy with h | h
        · left
          simp only [lexLe, if_neg hxy, decide_eq_true_eq]
          exact h
        · right
          simp only [lexLe, if_neg (Ne.symm hxy), decide_eq_true_eq]
          exact h

theorem lexLe_antisymm {a b : List Char} (h1 : lexLe a b = true)
    (h2 : lexLe b a = true) : a = b := by
  induction a generalizing b with
  | nil =>
    cases b with
    | nil => rfl
    | cons y ys => simp [lexLe] at h2
  | cons x xs ih =>
    cases b with
    | nil => simp [lexLe] at h1
    | cons y ys =>
      by_cases hxy : x = y
      · subst hxy
        simp only [lexLe, if_pos rfl] at h1 h2
        exact congrArg (x :: ·) (ih h1 h2)
      · simp only [lexLe, if_neg hxy, decide_eq_true_eq] at h1
        simp only [lexLe, if_neg (Ne.symm hxy), decide_eq_true_eq] at h2
        exact absurd h1 (not_lt_of_gt h2)

theorem lexLe_trans {a b c : List Char} (h1 : lexLe a b = true)
    (h2 : lexLe b c = true) : lexLe a c = true := by
  induction a generalizing b c with
  | nil => rfl
  | cons x xs ih =>
    cases b with
    | nil => simp [lexLe] at h1
    | cons y ys =>
      cases c with
      | nil => simp [lexLe] at h2
      | cons z zs =>
        by_cases hxy : x = y <;> by_cases hyz : y = z
        · subst hxy hyz
          simp only [lexLe, if_pos rfl] at h1 h2 ⊢
          exact ih h1 h2
        · subst hxy
          simpa [lexLe, hyz] using h2
        · subst hyz
          simpa [lexLe, hxy] using h1
        · simp only [lexLe, if_neg hxy, decide_eq_true_eq] at h1
          simp only [lexLe, if_neg hyz, decide_eq_true_eq] at h2
          have hxz : x < z := lt_trans h1 h2
          simp [lexLe, ne_of_lt hxz, hxz]

instance : IsTotal String strLeP :=
  ⟨fun s t => lexLe_total s.toList t.toList⟩

instance : IsTrans String strLeP :=
  ⟨fun _ _ _ h1 h2 => lexLe_trans h1 h2⟩

instance : IsAntisymm String strLeP :=
  ⟨fun s t h1 h2 => by
    cases s with
    | mk ds =>
      cases t with
      | mk dt => exact congrArg String.mk (lexLe_antisymm h1 h2)⟩

/-- Sorting a string list, modelling Rust's stable `sort` (any sort whose
output is ordered produces the same list, by antisymmetry). -/
def sortStrings (l : List String) : List String := l.insertionSort strLeP

theorem sortStrings_eq_of_perm {l₁ l₂ : List String} (h : l₁.Perm l₂) :
    sortStrings l₁ = sortStrings l₂ :=
  List.eq_of_perm_of_sorted
    ((List.perm_insertionSort strLeP l₁).trans
      (h.trans (List.perm_insertionSort strLeP l₂).symm))
    (List.sorted_insertionSort strLeP l₁)
    (List.sorted_insertionSort strLeP l₂)

/-! ## The invocation interceptor (`wrapper_main`)

From `src/cargo-xbuild/src/wrapper.rs` (and, for the `--cfg` half, the
identical code in `src/xtask/src/main.rs`).  The wrapper receives
`(realCompilerPath, originalArgs…)`; the pure content is the construction
of the delegated argument list from the original `rustc` arguments and the
two environment tables, and the exit-code mapping. -/

/-- `rustc_args.windows(2).find(|w| w[0] == "--crate-name").map(|w| w[1])`. -/
def wrapperCrateName : List String → Option String
  | [] => none
  | [_] => none
  | a :: b :: rest =>
    if a = "--crate-name" then some b else wrapperCrateName (b :: rest)

/-- The `--cfg feature="…"` flags injected from the `XCONFIG_FEATURES`
environment table (`none` models an unset variable). -/
def wrapperCfgArgs (crateName : Option String) (featEnv : Option String) : List String :=
  match crateName, featEnv with
  | some name, some env =>
    ((splitChar ';' env).filter (fun s => !s.isEmpty)).flatMap (fun entry =>
      match splitOnce ':' entry with
      | some (cn, feats) =>
        if cn = name then
          ((splitChar ',' feats).filter (fun s => !s.isEmpty)).flatMap
            (fun f => ["--cfg", "feature=\"" ++ f ++ "\""])
        else []
      | none => [])
  | _, _ => []

/-- The `--extern name=path` flags injected from the `XCONFIG_EXTERNS`
environment table. -/
def wrapperExternArgs (crateName : Option String) (externEnv : Option String) : List String :=
  match crateName, externEnv with
  | some name, some env =>
    ((splitChar ';' env).filter (fun s => !s.isEmpty)).flatMap (fun entry =>
      match splitOnce ':' entry with
      | some (cn, extSpec) =>
        if cn = name then
          match splitOnce '=' extSpec with
          | some (extName, rlibPath) => ["--extern", extName ++ "=" ++ rlibPath]
          | none => []
        else []
      | none => [])
  | _, _ => []

/-- The full delegated argument list: `wrapper_main` first passes the
original arguments (`cmd.args(rustc_args)`), then appends the `--cfg`
injections, then the `--extern` injections. -/
def wrapperDelegatedArgs (rustcArgs : List String)
    (featEnv externEnv : Option String) : List String :=
  rustcArgs ++ wrapperCfgArgs (wrapperCrateName rustcArgs) featEnv
    ++ wrapperExternArgs (wrapperCrateName rustcArgs) externEnv

/-- Exit status of the delegated compiler process: a normal exit with a
code, or termination by a signal (in which case Rust's
`ExitStatus::code()` returns `None` on Unix). -/
inductive ExitStatus : Type
  | exited (code : Int)
  | signaled (sig : Nat)
deriving DecidableEq

/-- Rust `ExitStatus::code()` (Unix): `Some(code)` on normal exit,
`None` on signal termination. -/
def statusCode : ExitStatus → Option Int
  | .exited c => some c
  | .signaled _ => none

/-- `std::process::exit(status.code().unwrap_or(1))` in `wrapper_main`. -/
def wrapperExitCode (s : ExitStatus) : Int := (statusCode s).getD 1

/-- Modelled from the spec: "propagates its exit code unchanged, including
non-zero/signal codes" — the observable exit code of the delegated
process, with the conventional `128 + signal` encoding for
signal-terminated children. -/
def specDelegatedCode : ExitStatus → Int
  | .exited c => c
  | .signaled n => 128 + (n : Int)

/-! ## Claims C5, C6, C10 -/

/-- C5 (counterexample): the claim "the wrapper process's own exit code
equals the delegated process's exit code unchanged, including …
signal-termination codes" is false: for a child killed by signal 9 the
wrapper exits with code 1, not with the signal-termination code 137. -/
theorem wrapper_exit_code_signal_counterexample :
    wrapperExitCode (ExitStatus.signaled 9) = 1 ∧
      specDelegatedCode (ExitStatus.signaled 9) = 137 ∧
      wrapperExitCode (ExitStatus.signaled 9) ≠ specDelegatedCode (ExitStatus.signaled 9) := by
  refine ⟨rfl, rfl, ?_⟩
  decide

/-- C5 (amended): the wrapper propagates the delegated compiler's exit
code unchanged whenever the child exits normally (including non-zero
codes); when the child is terminated by a signal — so `code()` is `None` —
the wrapper exits with the fixed code 1 instead of a signal code. -/
theorem wrapper_exit_code_propagation :
    (∀ c : Int, wrapperExitCode (ExitStatus.exited c) = c) ∧
      (∀ n : Nat, wrapperExitCode (ExitStatus.signaled n) = 1) :=
  ⟨fun _ => rfl, fun _ => rfl⟩

/-- C6 (counterexample): the claim that injected `--cfg`/`--extern` flags
appear before the original compiler arguments is false: for
`rustc_args = ["--crate-name", "foo", "main.rs"]` and feature table
`"foo:bar"`, the delegated command line is the original arguments followed
by the injection, not preceded by it. -/
theorem wrapper_injection_order_counterexample :
    wrapperDelegatedArgs ["--crate-name", "foo", "main.rs"] (some "foo:bar") none =
        ["--crate-name", "foo", "main.rs", "--cfg", "feature=\"bar\""] ∧
      wrapperDelegatedArgs ["--crate-name", "foo", "main.rs"] (some "foo:bar") none ≠
        ["--cfg", "feature=\"bar\"", "--crate-name", "foo", "main.rs"] := by
  constructor
  · rfl
  · decide

/-- C6 (amended): for every wrapper invocation the injected
conditional-activation and extern-binding flags are appended after the
original compiler arguments: the delegated command line starts with the
original arguments unchanged and ends with the `--cfg` injections followed
by the `--extern` injections. -/
theorem wrapper_injection_order (rustcArgs : List String)
    (featEnv externEnv : Option String) :
    (wrapperDelegatedArgs rustcArgs featEnv externEnv).take rustcArgs.length = rustcArgs ∧
      (wrapperDelegatedArgs rustcArgs featEnv externEnv).drop rustcArgs.length =
        wrapperCfgArgs (wrapperCrateName rustcArgs) featEnv
          ++ wrapperExternArgs (wrapperCrateName rustcArgs) externEnv := by
  unfold wrapperDelegatedArgs
  rw [List.append_assoc]
  exact ⟨List.take_left rustcArgs _, List.drop_left rustcArgs _⟩

/-- C10: if the compiler argument list contains no `--crate-name` flag,
the wrapper injects nothing — regardless of the contents of the
`XCONFIG_FEATURES` and `XCONFIG_EXTERNS` tables — and delegates exactly
the original argument list. -/
theorem wrapper_no_crate_name_frame (rustcArgs : List String)
    (featEnv externEnv : Option String)
    (h : wrapperCrateName rustcArgs = none) :
    wrapperDelegatedArgs rustcArgs featEnv externEnv = rustcArgs := by
  have hcfg : wrapperCfgArgs (wrapperCrateName rustcArgs) featEnv = [] := by
    rw [h]; cases featEnv <;> rfl
  have hext : wrapperExternArgs (wrapperCrateName rustcArgs) externEnv = [] := by
    rw [h]; cases externEnv <;> rfl
  simp [wrapperDelegatedArgs, hcfg, hext]

/-- C10 (witness): a concrete invocation without `--crate-name`. -/
theorem wrapper_no_crate_name_frame_witness :
    wrapperDelegatedArgs ["--edition", "2021", "main.rs"]
        (some "foo:bar") (some "foo:dep=/t/libdep.rlib") =
      ["--edition", "2021", "main.rs"] :=
  wrapper_no_crate_name_frame ["--edition", "2021", "main.rs"]
    (some "foo:bar") (some "foo:dep=/t/libdep.rlib") (by decide)

/-! ## Schema & config store (`config.rs`)

Data model from `src/cargo-xbuild/src/types.rs` and the validation /
generation logic from `src/cargo-xbuild/src/config.rs`. -/

/-- A `toml::Value`, restricted to the shapes the validator inspects. -/
inductive TVal : Type
  | bool (b : Bool)
  | int (n : Int)
  | str (s : String)
deriving DecidableEq

/-- `XConfigDef` from `src/cargo-xbuild/src/types.rs`: one schema entry of
`defconfig.toml` (the `typ` field defaults to `"bool"` at parse time and
the `default` field is a boolean). -/
structure XConfigDef : Type where
  description : Option String
  typ : String
  default : Bool
deriving DecidableEq

def tvalIsBool : TVal → Bool
  | .bool _ => true
  | _ => false

def tvalIsInt : TVal → Bool
  | .int _ => true
  | _ => false

def tvalIsStr : TVal → Bool
  | .str _ => true
  | _ => false

/-- `toml::Value::as_bool().unwrap_or(false)`. -/
def tvalAsBoolD : TVal → Bool
  | .bool b => b
  | _ => false

/-- `Display` of a `toml::Value` as interpolated into the mismatch
message. -/
def tvalDisplay : TVal → String
  | .bool b => if b then "true" else "false"
  | .int n => toString n
  | .str s => "\"" ++ s ++ "\""

def unknownKeyMsg (k : String) : String :=
  "unknown xconfig key `" ++ k ++ "` (not defined in defconfig.toml)"

def missingKeyMsg (k typ : String) : String :=
  "missing xconfig key `" ++ k ++ "` (defined in defconfig.toml as type=\"" ++ typ ++ "\")"

def unsupportedTypeMsg (k typ : String) : String :=
  "xconfig key `" ++ k ++ "`: unsupported type `" ++ typ ++ "` in defconfig.toml"

def mismatchMsg (k typ : String) (v : TVal) : String :=
  "xconfig key `" ++ k ++ "`: expected type `" ++ typ ++ "`, got `" ++ tvalDisplay v ++ "`"

/-- `defs.contains_key(key)`. -/
def defsContains (defs : List (String × XConfigDef)) (k : String) : Bool :=
  (mlookup defs k).isSome

/-- The errors contributed by one `(key, def)` entry of the
`for (key, def) in defs` loop of `validate_config`: a missing-key error,
or a type check whose `other` arm records an unsupported type (and skips
the mismatch check via `continue`). -/
def validateEntryErrors (configMap : List (String × TVal)) (kd : String × XConfigDef) :
    List String :=
  match mlookup configMap kd.1 with
  | none => [missingKeyMsg kd.1 kd.2.typ]
  | some v =>
    if kd.2.typ = "bool" then
      if tvalIsBool v then [] else [mismatchMsg kd.1 kd.2.typ v]
    else if kd.2.typ = "int" then
      if tvalIsInt v then [] else [mismatchMsg kd.1 kd.2.typ v]
    else if kd.2.typ = "string" then
      if tvalIsStr v then [] else [mismatchMsg kd.1 kd.2.typ v]
    else [unsupportedTypeMsg kd.1 kd.2.typ]

/-- All errors accumulated by `validate_config`: unknown keys (first
loop, over the config map), then missing keys / type errors (second loop,
over the schema). -/
def validateErrors (configMap : List (String × TVal)) (defs : List (String × XConfigDef)) :
    List String :=
  ((configMap.map Prod.fst).filter (fun k => !defsContains defs k)).map unknownKeyMsg
    ++ defs.flatMap (validateEntryErrors configMap)

/-- `validate_config`: `Ok(())` iff no error was accumulated; otherwise a
single validation failure carrying every accumulated error. -/
def validateConfig (configMap : List (String × TVal)) (defs : List (String × XConfigDef)) :
    Except (List String) Unit :=
  if (validateErrors configMap defs).isEmpty then .ok () else .error (validateErrors configMap defs)

/-- `load_active_xconfigs`: validates, then returns
`(active_keys, all_keys)` where `all_keys` comes from the schema and the
active keys are the config entries whose value is the boolean `true`. -/
def loadActiveXconfigs (configMap : List (String × TVal)) (defs : List (String × XConfigDef)) :
    Except (List String) (List String × List String) :=
  match validateConfig configMap defs with
  | .error e => .error e
  | .ok _ =>
    .ok ((configMap.filter (fun p => tvalAsBoolD p.2)).map Prod.fst, defs.map Prod.fst)

/-- `defs[key].default`, with a `false` fallback (the Rust indexing is
only reached for keys of `defs`). -/
def defDefault (defs : List (String × XConfigDef)) (k : String) : Bool :=
  ((mlookup defs k).map XConfigDef.default).getD false

/-- `defs[key].description`, with a `none` fallback. -/
def defDescription (defs : List (String × XConfigDef)) (k : String) : Option String :=
  (mlookup defs k).bind XConfigDef.description

/-- The lines `ensure_config_toml` writes into a fresh `.config.toml`:
header comment, `[xconfig]` table header, then — for each schema key in
sorted order — an optional description comment and `key = default`, and a
trailing empty line. -/
def ensureConfigLines (defs : List (String × XConfigDef)) : List String :=
  ["# Auto-generated from defconfig.toml — edit as needed.", "[xconfig]"]
    ++ (sortStrings (defs.map Prod.fst)).flatMap (fun k =>
        (match defDescription defs k with
         | some d => ["# " ++ d]
         | none => []) ++ [k ++ " = " ++ (if defDefault defs k then "true" else "false")])
    ++ [""]

/-- The generated `.config.toml` content (`lines.join("\n")`). -/
def ensureConfigContent (defs : List (String × XConfigDef)) : String :=
  String.intercalate "\n" (ensureConfigLines defs)

/-- The `[xconfig]` table obtained by parsing the generated config file
back: each generated `key = default` line parses to one boolean entry.
This models the composition of `ensure_config_toml`'s write with the read
and TOML parse in `load_active_xconfigs`. -/
def ensureConfigMap (defs : List (String × XConfigDef)) : List (String × TVal) :=
  (sortStrings (defs.map Prod.fst)).map (fun k => (k, TVal.bool (defDefault defs k)))

/-! ### Association-list lookup lemmas -/

theorem mlookup_eq_none_iff {β : Type} (c : List (String × β)) (k : String) :
    mlookup c k = none ↔ k ∉ c.map Prod.fst := by
  induction c with
  | nil => simp [mlookup]
  | cons p rest ih =>
    obtain ⟨k', v⟩ := p
    by_cases hk : k' = k
    · subst hk
      simp [mlookup]
    · simp [mlookup, hk, Ne.symm hk, ih]

theorem mem_of_mlookup_eq_some {β : Type} {c : List (String × β)} {k : String} {v : β}
    (h : mlookup c k = some v) : (k, v) ∈ c := by
  induction c with
  | nil => simp [mlookup] at h
  | cons p rest ih =>
    obtain ⟨k', v'⟩ := p
    by_cases hk : k' = k
    · subst hk
      simp only [mlookup, eq_self_iff_true, if_true, Option.some.injEq] at h
      subst h
      exact List.mem_cons_self _ _
    · simp only [mlookup, if_neg hk] at h
      exact List.mem_cons_of_mem _ (ih h)

theorem mlookup_eq_some_of_mem {β : Type} {c : List (String × β)} {k : String} {v : β}
    (hnd : (c.map Prod.fst).Nodup) (hm : (k, v) ∈ c) : mlookup c k = some v := by
  induction c with
  | nil => simp at hm
  | cons p rest ih =>
    obtain ⟨k', v'⟩ := p
    simp only [List.map_cons, List.nodup_cons] at hnd
    rcases List.mem_cons.mp hm with h | h
    · injection h with h1 h2
      subst h1
      subst h2
      simp [mlookup]
    · by_cases hk : k' = k
      · subst hk
        exact absurd (List.mem_map.mpr ⟨(k', v), h, rfl⟩) hnd.1
      · simp only [mlookup, if_neg hk]
        exact ih hnd.2 h

theorem mlookup_eq_of_perm {β : Type} {c₁ c₂ : List (String × β)} (h : c₁.Perm c₂)
    (hnd : (c₁.map Prod.fst).Nodup) (k : String) : mlookup c₁ k = mlookup c₂ k := by
  have hnd₂ : (c₂.map Prod.fst).Nodup := ((h.map Prod.fst).nodup_iff).mp hnd
  cases hc : mlookup c₁ k with
  | none =>
    have hk : k ∉ c₁.map Prod.fst := (mlookup_eq_none_iff c₁ k).mp hc
    have hk₂ : k ∉ c₂.map Prod.fst := fun hm => hk ((h.map Prod.fst).mem_iff.mpr hm)
    exact ((mlookup_eq_none_iff c₂ k).mpr hk₂).symm
  | some v =>
    exact (mlookup_eq_some_of_mem hnd₂ (h.mem_iff.mp (mem_of_mlookup_eq_some hc))).symm

theorem flatMap_congr {α β : Type} {l : List α} {f g : α → List β}
    (h : ∀ a ∈ l, f a = g a) : l.flatMap f = l.flatMap g := by
  induction l with
  | nil => rfl
  | cons x xs ih =>
    simp only [List.flatMap_cons]
    rw [h x (List.mem_cons_self x xs), ih (fun a ha => h a (List.mem_cons_of_mem _ ha))]

theorem mlookup_map_graph {β : Type} (l : List String) (g : String → β) (x : String) :
    mlookup (l.map (fun k => (k, g k))) x = if x ∈ l then some (g x) else none := by
  induction l with
  | nil => simp [mlookup]
  | cons k ks ih =>
    simp only [List.map_cons, mlookup]
    by_cases hk : k = x
    · subst hk
      simp
    · rw [if_neg hk, ih]
      by_cases hx : x ∈ ks
      · rw [if_pos hx, if_pos (List.mem_cons_of_mem _ hx)]
      · rw [if_neg hx, if_neg (fun hmem => ?_)]
        rcases List.mem_cons.mp hmem with h | h
        · exact hk h.symm
        · exact hx h

theorem filterMapGraph {β : Type} (l : List String) (g : String → β) (p : β → Bool) :
    ((l.map (fun k => (k, g k))).filter (fun q => p q.2)).map Prod.fst =
      l.filter (fun k => p (g k)) := by
  induction l with
  | nil => rfl
  | cons k ks ih =>
    simp only [List.map_cons, List.filter_cons]
    by_cases hp : p (g k) = true
    · simp only [hp, if_true, List.map_cons, ih]
    · simp only [Bool.not_eq_true] at hp
      simp only [hp, Bool.false_eq_true, if_false, ih]

/-! ## Claim C7 -/

/-- C7: `validate_config` accumulates every violation — each unknown key
and every missing-key / type error contributed by a schema entry appears
in the reported error list — and fails once with the whole list; and the
reporting is commutative: presenting the config keys in any order yields
the same sorted list of error messages. -/
theorem validateConfigAccumulatesAll
    (c₁ c₂ : List (String × TVal)) (defs : List (String × XConfigDef))
    (hperm : c₁.Perm c₂) (hnd : (c₁.map Prod.fst).Nodup) :
    sortStrings (validateErrors c₁ defs) = sortStrings (validateErrors c₂ defs) ∧
      (∀ k ∈ c₁.map Prod.fst, defsContains defs k = false →
        unknownKeyMsg k ∈ validateErrors c₁ defs) ∧
      (∀ kd ∈ defs, ∀ e ∈ validateEntryErrors c₁ kd, e ∈ validateErrors c₁ defs) ∧
      (validateErrors c₁ defs ≠ [] →
        validateConfig c₁ defs = .error (validateErrors c₁ defs)) := by
  have hflat : defs.flatMap (validateEntryErrors c₁) = defs.flatMap (validateEntryErrors c₂) :=
    flatMap_congr (fun kd _ => by
      unfold validateEntryErrors
      rw [mlookup_eq_of_perm hperm hnd kd.1])
  refine ⟨?_, ?_, ?_, ?_⟩
  · apply sortStrings_eq_of_perm
    unfold validateErrors
    exact List.Perm.append
      (List.Perm.map unknownKeyMsg (List.Perm.filter _ (hperm.map Prod.fst)))
      (hflat ▸ List.Perm.refl _)
  · intro k hk hfalse
    unfold validateErrors
    refine List.mem_append.mpr (Or.inl ?_)
    exact List.mem_map.mpr ⟨k, List.mem_filter.mpr ⟨hk, by simp [hfalse]⟩, rfl⟩
  · intro kd hkd e he
    unfold validateErrors
    exact List.mem_append.mpr (Or.inr (List.mem_flatMap.mpr ⟨kd, hkd, he⟩))
  · intro hne
    cases hval : validateErrors c₁ defs with
    | nil => exact absurd hval hne
    | cons a as => simp [validateConfig, hval]

/-- C7 (witness): two orderings of a config with two unknown keys and a
missing schema key report the same sorted error messages. -/
theorem validateConfigAccumulatesAllWitness :
    sortStrings (validateErrors [("a", TVal.bool true), ("zz", TVal.int 3)]
        [("b", ⟨none, "bool", true⟩)]) =
      sortStrings (validateErrors [("zz", TVal.int 3), ("a", TVal.bool true)]
        [("b", ⟨none, "bool", true⟩)]) :=
  (validateConfigAccumulatesAll
    [("a", TVal.bool true), ("zz", TVal.int 3)]
    [("zz", TVal.int 3), ("a", TVal.bool true)]
    [("b", ⟨none, "bool", true⟩)] (by decide) (by decide)).1

/-! ## Claim C8 -/

/-- C8 (counterexample): the round-trip claim fails for a schema entry of
declared type `"int"`: `ensure_config_toml` writes the boolean default
(`XConfigDef.default` is a `bool`), so loading the generated config back
reports a type mismatch instead of zero validation errors. -/
theorem ensureConfigRoundTripCounterexample :
    validateErrors (ensureConfigMap [("k", ⟨none, "int", false⟩)])
        [("k", ⟨none, "int", false⟩)] =
      [mismatchMsg "k" "int" (TVal.bool false)] ∧
    loadActiveXconfigs (ensureConfigMap [("k", ⟨none, "int", false⟩)])
        [("k", ⟨none, "int", false⟩)] =
      Except.error [mismatchMsg "k" "int" (TVal.bool false)] := by
  constructor
  · decide
  · rfl

/-- C8 (amended): for every schema all of whose entries have type
`"bool"` (the only value type the generated defaults can satisfy),
generating the config file from schema defaults and loading it back
validates with zero errors, and the resulting active set is exactly the
set of switches whose schema default is `true`. -/
theorem ensureConfigRoundTrip (defs : List (String × XConfigDef))
    (hnd : (defs.map Prod.fst).Nodup)
    (hb : ∀ kd ∈ defs, kd.2.typ = "bool") :
    loadActiveXconfigs (ensureConfigMap defs) defs =
        Except.ok ((sortStrings (defs.map Prod.fst)).filter (fun k => defDefault defs k),
          defs.map Prod.fst) ∧
      (∀ k, k ∈ (sortStrings (defs.map Prod.fst)).filter (fun k => defDefault defs k) ↔
        ∃ d, (k, d) ∈ defs ∧ d.default = true) := by
  have hpermk : (sortStrings (defs.map Prod.fst)).Perm (defs.map Prod.fst) :=
    List.perm_insertionSort strLeP (defs.map Prod.fst)
  have hkeys : (ensureConfigMap defs).map Prod.fst = sortStrings (defs.map Prod.fst) := by
    unfold ensureConfigMap
    rw [List.map_map]
    exact List.map_id _
  have hval : validateErrors (ensureConfigMap defs) defs = [] := by
    unfold validateErrors
    rw [List.append_eq_nil]
    constructor
    · rw [hkeys]
      have hfil : (sortStrings (defs.map Prod.fst)).filter
          (fun k => !defsContains defs k) = [] := by
        rw [List.filter_eq_nil_iff]
        intro k hk
        have hkm : k ∈ defs.map Prod.fst := hpermk.mem_iff.mp hk
        have hne : mlookup defs k ≠ none := fun h =>
          (mlookup_eq_none_iff defs k).mp h hkm
        simp [defsContains, Option.ne_none_iff_isSome.mp hne]
      rw [hfil]
      rfl
    · rw [List.flatMap_eq_nil_iff]
      intro kd hkd
      have hks : kd.1 ∈ sortStrings (defs.map Prod.fst) :=
        hpermk.mem_iff.mpr (List.mem_map.mpr ⟨kd, hkd, rfl⟩)
      have hlk : mlookup (ensureConfigMap defs) kd.1 =
          some (TVal.bool (defDefault defs kd.1)) := by
        unfold ensureConfigMap
        rw [mlookup_map_graph, if_pos hks]
      unfold validateEntryErrors
      rw [hlk, hb kd hkd]
      simp [tvalIsBool]
  have hact : ((ensureConfigMap defs).filter (fun p => tvalAsBoolD p.2)).map Prod.fst =
      (sortStrings (defs.map Prod.fst)).filter (fun k => defDefault defs k) := by
    unfold ensureConfigMap
    rw [filterMapGraph]
    simp only [tvalAsBoolD]
  constructor
  · unfold loadActiveXconfigs validateConfig
    rw [hval]
    simp only [List.isEmpty_nil, if_true]
    rw [hact]
  · intro k
    constructor
    · intro hk
      obtain ⟨hks, hdef⟩ := List.mem_filter.mp hk
      have hkm : k ∈ defs.map Prod.fst := hpermk.mem_iff.mp hks
      obtain ⟨⟨k', d⟩, hmem, hfst⟩ := List.mem_map.mp hkm
      subst hfst
      refine ⟨d, hmem, ?_⟩
      have : mlookup defs k' = some d := mlookup_eq_some_of_mem hnd hmem
      simpa [defDefault, this] using hdef
    · intro ⟨d, hmem, hdef⟩
      have hlk : mlookup defs k = some d := mlookup_eq_some_of_mem hnd hmem
      refine List.mem_filter.mpr ⟨?_, ?_⟩
      · exact hpermk.mem_iff.mpr (List.mem_map.mpr ⟨(k, d), hmem, rfl⟩)
      · simp [defDefault, hlk, hdef]

/-- C8 (witness): the round trip on a concrete all-bool schema. -/
theorem ensureConfigRoundTripWitness :
    loadActiveXconfigs
        (ensureConfigMap [("b", ⟨some "desc", "bool", false⟩), ("a", ⟨none, "bool", true⟩)])
        [("b", ⟨some "desc", "bool", false⟩), ("a", ⟨none, "bool", true⟩)] =
      Except.ok
        ((sortStrings ([("b", (⟨some "desc", "bool", false⟩ : XConfigDef)),
            ("a", ⟨none, "bool", true⟩)].map Prod.fst)).filter
          (fun k => defDefault [("b", ⟨some "desc", "bool", false⟩),
            ("a", ⟨none, "bool", true⟩)] k),
         [("b", (⟨some "desc", "bool", false⟩ : XConfigDef)),
           ("a", ⟨none, "bool", true⟩)].map Prod.fst) :=
  (ensureConfigRoundTrip
    [("b", ⟨some "desc", "bool", false⟩), ("a", ⟨none, "bool", true⟩)]
    (by decide) (by decide)).1

/-! ## The feature mapper (`collect_xconfig_metadata`)

From `src/cargo-xbuild/src/config.rs` (slash and bare specs) and
`src/xtask/src/main.rs` (slash specs only). -/

/-- The `[package]` section of a scanned `Cargo.toml`: its optional name
and optional `[package.metadata.xconfig]` mapping table. -/
structure XPackage : Type where
  name : Option String
  xconfig : Option (List (String × List String))
deriving DecidableEq

/-- A parsed `Cargo.toml`, as deserialized by the collectors. -/
structure Manifest : Type where
  package : Option XPackage
deriving DecidableEq

/-- One `spec` iteration of the cargo-xbuild collector loop: a
`crate/feature` spec appends the suffix feature under the named crate; a
bare spec appends the whole spec under the declaring package's own name,
and is dropped when the package has no name. -/
def applySpec (selfName : Option String) (fm : List (String × List String))
    (spec : String) : List (String × List String) :=
  match splitOnce '/' spec with
  | some (crateName, feature) => mapAppend fm crateName feature
  | none =>
    match selfName with
    | some n => mapAppend fm n spec
    | none => fm

/-- One `key in active` iteration: look the switch up in the package's
mapping table and fold its spec list into the feature map. -/
def keyStep (selfName : Option String) (table : List (String × List String))
    (fm : List (String × List String)) (key : String) : List (String × List String) :=
  match mlookup table key with
  | none => fm
  | some specs => specs.foldl (applySpec selfName) fm

/-- `collect_xconfig_metadata` (cargo-xbuild): scan one manifest's
mapping table over the active switch list, accumulating into `fm`. -/
def collectXconfigMetadata (m : Manifest) (active : List String)
    (fm : List (String × List String)) : List (String × List String) :=
  match m.package with
  | none => fm
  | some pkg =>
    match pkg.xconfig with
    | none => fm
    | some table => active.foldl (keyStep pkg.name table) fm

/-- `collect_all_metadata`: fold the collector over every scanned
manifest, starting from the empty feature map. -/
def collectAllMetadata (manifests : List Manifest) (active : List String) :
    List (String × List String) :=
  manifests.foldl (fun fm m => collectXconfigMetadata m active fm) []

/-- The xtask variant of the per-spec step (`src/xtask/src/main.rs`):
only `crate/feature` specs are handled, a bare spec is ignored. -/
def xtaskApplySpec (fm : List (String × List String)) (spec : String) :
    List (String × List String) :=
  match splitOnce '/' spec with
  | some (crateName, feature) => mapAppend fm crateName feature
  | none => fm

/-- `collect_xconfig_metadata` (xtask): as above but through
`package.and_then(metadata).and_then(xconfig)` and with the slash-only
spec handling. -/
def xtaskCollectXconfigMetadata (m : Manifest) (active : List String)
    (fm : List (String × List String)) : List (String × List String) :=
  match m.package.bind XPackage.xconfig with
  | none => fm
  | some table =>
    active.foldl
      (fun fm key =>
        match mlookup table key with
        | none => fm
        | some specs => specs.foldl xtaskApplySpec fm)
      fm

/-- The scan loop of `xtask_main` step 2 over all crate manifests. -/
def xtaskCollectAll (manifests : List Manifest) (active : List String) :
    List (String × List String) :=
  manifests.foldl (fun fm m => xtaskCollectXconfigMetadata m active fm) []

/-! ### Per-package contribution closed form -/

/-- What one spec contributes to package `pkg`'s feature list. -/
def specContrib (selfName : Option String) (spec : String) (pkg : String) : List String :=
  match splitOnce '/' spec with
  | some (crateName, feature) => if pkg = crateName then [feature] else []
  | none =>
    match selfName with
    | some n => if pkg = n then [spec] else []
    | none => []

/-- What one active switch contributes to `pkg` through one table. -/
def keyContribT (selfName : Option String) (table : List (String × List String))
    (key pkg : String) : List String :=
  ((mlookup table key).getD []).flatMap (fun s => specContrib selfName s pkg)

/-- What one active switch contributes to `pkg` through one manifest. -/
def keyContrib (m : Manifest) (key pkg : String) : List String :=
  match m.package with
  | none => []
  | some p =>
    match p.xconfig with
    | none => []
    | some table => keyContribT p.name table key pkg

theorem mlookupD_applySpec (selfName : Option String) (fm : List (String × List String))
    (s : String) (pkg : String) :
    mlookupD (applySpec selfName fm s) pkg = mlookupD fm pkg ++ specContrib selfName s pkg := by
  unfold applySpec specContrib
  cases h : splitOnce '/' s with
  | some p =>
    obtain ⟨cn, feat⟩ := p
    rw [mlookupD_mapAppend]
    by_cases hpc : pkg = cn <;> simp [hpc]
  | none =>
    cases selfName with
    | some n =>
      rw [mlookupD_mapAppend]
      by_cases hpn : pkg = n <;> simp [hpn]
    | none => simp

theorem mlookupD_foldl_applySpec (specs : List String) (selfName : Option String)
    (fm : List (String × List String)) (pkg : String) :
    mlookupD (specs.foldl (applySpec selfName) fm) pkg =
      mlookupD fm pkg ++ specs.flatMap (fun s => specContrib selfName s pkg) := by
  induction specs generalizing fm with
  | nil => simp
  | cons s ss ih =>
    simp only [List.foldl_cons, List.flatMap_cons]
    rw [ih, mlookupD_applySpec, List.append_assoc]

theorem mlookupD_keyStep (selfName : Option String) (table : List (String × List String))
    (fm : List (String × List String)) (key pkg : String) :
    mlookupD (keyStep selfName table fm key) pkg =
      mlookupD fm pkg ++ keyContribT selfName table key pkg := by
  unfold keyStep keyContribT
  cases h : mlookup table key with
  | none => simp
  | some specs => simp [mlookupD_foldl_applySpec]

theorem mlookupD_foldl_keyStep (active : List String) (selfName : Option String)
    (table : List (String × List String)) (fm : List (String × List String)) (pkg : String) :
    mlookupD (active.foldl (keyStep selfName table) fm) pkg =
      mlookupD fm pkg ++ active.flatMap (fun k => keyContribT selfName table k pkg) := by
  induction active generalizing fm with
  | nil => simp
  | cons k ks ih =>
    simp only [List.foldl_cons, List.flatMap_cons]
    rw [ih, mlookupD_keyStep, List.append_assoc]

theorem mlookupD_collectXconfigMetadata (m : Manifest) (active : List String)
    (fm : List (String × List String)) (pkg : String) :
    mlookupD (collectXconfigMetadata m active fm) pkg =
      mlookupD fm pkg ++ active.flatMap (fun k => keyContrib m k pkg) := by
  unfold collectXconfigMetadata keyContrib
  cases hp : m.package with
  | none =>
    dsimp only
    rw [List.flatMap_eq_nil_iff.mpr (fun _ _ => rfl)]
    simp
  | some p =>
    dsimp only
    cases hx : p.xconfig with
    | none =>
      dsimp only
      rw [List.flatMap_eq_nil_iff.mpr (fun _ _ => rfl)]
      simp
    | some table =>
      dsimp only
      exact mlookupD_foldl_keyStep active p.name table fm pkg

theorem mlookupD_collectAllMetadata (manifests : List Manifest) (active : List String)
    (pkg : String) :
    mlookupD (collectAllMetadata manifests active) pkg =
      manifests.flatMap (fun m => active.flatMap (fun k => keyContrib m k pkg)) := by
  have general : ∀ (ms : List Manifest) (fm : List (String × List String)),
      mlookupD (ms.foldl (fun fm m => collectXconfigMetadata m active fm) fm) pkg =
        mlookupD fm pkg ++ ms.flatMap (fun m => active.flatMap (fun k => keyContrib m k pkg)) := by
    intro ms
    induction ms with
    | nil => simp
    | cons m rest ih =>
      intro fm
      simp only [List.foldl_cons, List.flatMap_cons]
      rw [ih, mlookupD_collectXconfigMetadata, List.append_assoc]
  unfold collectAllMetadata
  rw [general, mlookupD_nil]
  rfl

/-! ## Claim C4 -/

/-- C4 (counterexample): the claim fails on the xtask Feature Mapper
(`collect_xconfig_metadata` in `src/xtask/src/main.rs`), which handles
only `crate/feature` specs: for package `P` declaring
`a = ["P2/x", "y"]` with active set `a`, it emits `P2 -> [x]` but drops
the bare spec `y`, so `P`'s feature list is empty rather than `[y]`. -/
theorem featureMapperBareSpecCounterexample :
    mlookupD (xtaskCollectAll
        [Manifest.mk (some (XPackage.mk (some "P") (some [("a", ["P2/x", "y"])])))]
        ["a"]) "P2" = ["x"] ∧
      mlookupD (xtaskCollectAll
        [Manifest.mk (some (XPackage.mk (some "P") (some [("a", ["P2/x", "y"])])))]
        ["a"]) "P" = [] ∧
      ([] : List String) ≠ ["y"] := by
  refine ⟨by decide, by decide, by decide⟩

/-- C4 (amended): the cargo-xbuild Feature Mapper maps a spec containing
a separator to (named package, suffix feature) and a bare spec to (the
declaring package, the whole spec) provided the declaring package has a
name; in particular the scenario of the claim holds for it.  The xtask
variant of the mapper drops bare specs (see the counterexample). -/
theorem featureMapperSpecMapping :
    (∀ (selfName : Option String) (fm : List (String × List String)) (s cn feat : String),
        splitOnce '/' s = some (cn, feat) →
        mlookupD (applySpec selfName fm s) cn = mlookupD fm cn ++ [feat]) ∧
      (∀ (p : String) (fm : List (String × List String)) (s : String),
        splitOnce '/' s = none →
        mlookupD (applySpec (some p) fm s) p = mlookupD fm p ++ [s]) ∧
      (mlookupD (collectAllMetadata
          [Manifest.mk (some (XPackage.mk (some "P") (some [("a", ["P2/x", "y"])])))]
          ["a"]) "P2" = ["x"] ∧
        mlookupD (collectAllMetadata
          [Manifest.mk (some (XPackage.mk (some "P") (some [("a", ["P2/x", "y"])])))]
          ["a"]) "P" = ["y"]) := by
  refine ⟨?_, ?_, by decide, by decide⟩
  · intro selfName fm s cn feat h
    unfold applySpec
    rw [h, mlookupD_mapAppend, if_pos rfl]
  · intro p fm s h
    unfold applySpec
    rw [h]
    rw [mlookupD_mapAppend, if_pos rfl]

/-- C4 (witness): the slash and bare cases at concrete inputs. -/
theorem featureMapperSpecMappingWitness :
    mlookupD (applySpec (some "P") [] "P2/x") "P2" = mlookupD [] "P2" ++ ["x"] ∧
      mlookupD (applySpec (some "P") [] "y") "P" = mlookupD [] "P" ++ ["y"] :=
  ⟨featureMapperSpecMapping.1 (some "P") [] "P2/x" "P2" "x" (by decide),
    featureMapperSpecMapping.2.1 "P" [] "y" (by decide)⟩

/-! ## Claim C9 -/

/-- C9 (counterexample): the resolved feature map does not have set
semantics: duplicate specs targeting the same (package, feature) pair are
retained (`Vec::push`, no dedup), and permuting the active names permutes
the per-package feature lists. -/
theorem resolvedFeatureMapSetSemanticsCounterexample :
    mlookupD (collectAllMetadata
        [Manifest.mk (some (XPackage.mk (some "P") (some [("a", ["y", "y"])])))]
        ["a"]) "P" = ["y", "y"] ∧
      (["y", "y"] : List String) ≠ ["y"] ∧
      mlookupD (collectAllMetadata
        [Manifest.mk (some (XPackage.mk (some "P") (some [("a", ["P2/x"]), ("b", ["P2/y"])])))]
        ["a", "b"]) "P2" = ["x", "y"] ∧
      mlookupD (collectAllMetadata
        [Manifest.mk (some (XPackage.mk (some "P") (some [("a", ["P2/x"]), ("b", ["P2/y"])])))]
        ["b", "a"]) "P2" = ["y", "x"] ∧
      (["x", "y"] : List String) ≠ ["y", "x"] := by
  refine ⟨by decide, by decide, by decide, by decide, by decide⟩

/-- C9 (amended): the resolved feature map has multiset semantics per
package: permuting the active switch names yields, for every package, a
feature list that is a permutation of the original (insertion order moves
but no entry is gained or lost); duplicates are retained rather than
collapsed (dedup happens only downstream, in the editor-settings
projection). -/
theorem collectAllMetadataPermInvariant (manifests : List Manifest)
    (a₁ a₂ : List String) (hperm : a₁.Perm a₂) (pkg : String) :
    (mlookupD (collectAllMetadata manifests a₁) pkg).Perm
      (mlookupD (collectAllMetadata manifests a₂) pkg) := by
  rw [mlookupD_collectAllMetadata, mlookupD_collectAllMetadata]
  exact List.Perm.flatMap_left manifests
    (fun m _ => hperm.flatMap_right (fun k => keyContrib m k pkg))

/-- C9 (witness): permutation invariance at a concrete input. -/
theorem collectAllMetadataPermInvariantWitness :
    (mlookupD (collectAllMetadata
        [Manifest.mk (some (XPackage.mk (some "P") (some [("a", ["P2/x"]), ("b", ["P2/y"])])))]
        ["a", "b"]) "P2").Perm
      (mlookupD (collectAllMetadata
        [Manifest.mk (some (XPackage.mk (some "P") (some [("a", ["P2/x"]), ("b", ["P2/y"])])))]
        ["b", "a"]) "P2") :=
  collectAllMetadataPermInvariant
    [Manifest.mk (some (XPackage.mk (some "P") (some [("a", ["P2/x"]), ("b", ["P2/y"])])))]
    ["a", "b"] ["b", "a"] (by decide) "P2"

/-! ## The extern resolver (`src/xtask/src/resolve.rs`) -/

/-- A dependency entry of a `cargo metadata` package (`MetadataDep` in
`src/xtask/src/types.rs`). -/
structure MetadataDep : Type where
  name : String
  source : Option String
  optional : Bool
  path : Option String
deriving DecidableEq

/-- A package entry of `cargo metadata` (`MetadataPackage`), extended
with the `[features]` table that `resolve_extern_map_from_metadata`
re-reads from the package's own manifest; the model passes the parsed
table (`none` when the manifest has no `[features]` section) in place of
the file read. -/
structure MetadataPackage : Type where
  name : String
  features : Option (List (String × List String))
  dependencies : List MetadataDep
deriving DecidableEq

/-- `DepSource` from `src/xtask/src/types.rs`. -/
inductive DepSource : Type
  | git (url : String)
  | path (p : String)
  | registry
deriving DecidableEq

/-- Info about an optional dep that needs an extern binding
(`ExternDep` in `src/xtask/src/types.rs`). -/
structure ExternDep : Type where
  crate_name : String
  pkg_name : String
  source : DepSource
deriving DecidableEq

/-- Rust `src.strip_prefix("git+")` at the character level. -/
def stripGitScheme : List Char → Option (List Char)
  | 'g' :: 'i' :: 't' :: '+' :: rest => some rest
  | _ => none

/-- Rust `entry.strip_prefix("dep:")` at the character level. -/
def stripDepColon : List Char → Option (List Char)
  | 'd' :: 'e' :: 'p' :: ':' :: rest => some rest
  | _ => none

/-- `dep_name.replace('-', "_")`. -/
def normalizeCrateName (s : String) : String :=
  String.mk (s.toList.map (fun c => if c = '-' then '_' else c))

/-- Source classification of one dependency, as in the
`dep_source_lookup` construction: a `git+` source keeps the URL up to any
`#` revision fragment; any other explicit source is Registry; with no
explicit source, a path dependency is Path; otherwise Registry. -/
def classifyDepSource (d : MetadataDep) : DepSource :=
  match d.source with
  | some src =>
    match stripGitScheme src.toList with
    | some url => DepSource.git (String.mk ((splitCharList '#' url).headD url))
    | none => DepSource.registry
  | none =>
    match d.path with
    | some p => DepSource.path p
    | none => DepSource.registry

/-- `dep_source_lookup`: the optional dependencies of a package, each
paired with its classified source, in declaration order. -/
def depSourceLookup (pkg : MetadataPackage) : List (String × DepSource) :=
  (pkg.dependencies.filter (fun d => d.optional)).map
    (fun d => (d.name, classifyDepSource d))

/-- Lookup in a `HashMap` collected from an iterator: on duplicate keys
the last insertion wins, so search the reversed list. -/
def lookupLast {β : Type} (m : List (String × β)) (k : String) : Option β :=
  mlookup m.reverse k

/-- `pkg_lookup.get(crate_name)`: the packages keyed by name (last
duplicate wins, as for a collected `HashMap`). -/
def findPkg (pkgs : List MetadataPackage) (crateName : String) : Option MetadataPackage :=
  pkgs.reverse.find? (fun p => p.name == crateName)

/-- The `ExternDep`s pushed for one `(crate_name, features)` entry of the
feature-map loop in `resolve_extern_map_from_metadata`: a crate missing
from the metadata package list is skipped (`continue`), as is a manifest
without a `[features]` table and a feature absent from it; each `dep:X`
entry of an activated feature emits one `ExternDep`, with the source
defaulted to Registry when `X` is not among the package's optional
dependencies (`unwrap_or(DepSource::Registry)`). -/
def resolveCrateDeps (pkgs : List MetadataPackage) (crateName : String)
    (features : List String) : List ExternDep :=
  match findPkg pkgs crateName with
  | none => []
  | some pkg =>
    match pkg.features with
    | none => []
    | some featTable =>
      features.flatMap (fun fn =>
        match mlookup featTable fn with
        | none => []
        | some activates =>
          activates.flatMap (fun entry =>
            match stripDepColon entry.toList with
            | none => []
            | some depName =>
              [ExternDep.mk (normalizeCrateName (String.mk depName)) (String.mk depName)
                ((lookupLast (depSourceLookup pkg) (String.mk depName)).getD
                  DepSource.registry)]))

/-- `resolve_extern_map_from_metadata`: fold the per-crate resolution
over the feature map, pushing each `ExternDep` under its crate. -/
def resolveExternMapFromMetadata (pkgs : List MetadataPackage)
    (featureMap : List (String × List String)) : List (String × List ExternDep) :=
  featureMap.foldl
    (fun em p => (resolveCrateDeps pkgs p.1 p.2).foldl (fun em e => mapAppend em p.1 e) em)
    []

/-! ## Claim C3 -/

/-- C3 (counterexample): a `dep:X` entry whose `X` is absent from the
package's dependency-graph entry is not skipped: package `P` has an empty
dependency list yet feature `f = ["dep:X"]` emits an `ExternDep` for
`(P, X)` with the source defaulted to Registry. -/
theorem resolveAbsentDepCounterexample :
    resolveCrateDeps [MetadataPackage.mk "P" (some [("f", ["dep:X"])]) []] "P" ["f"] =
        [ExternDep.mk "X" "X" DepSource.registry] ∧
      resolveCrateDeps [MetadataPackage.mk "P" (some [("f", ["dep:X"])]) []] "P" ["f"] ≠ [] ∧
      mlookupD (resolveExternMapFromMetadata
          [MetadataPackage.mk "P" (some [("f", ["dep:X"])]) []] [("P", ["f"])]) "P" =
        [ExternDep.mk "X" "X" DepSource.registry] := by
  refine ⟨by decide, by decide, by decide⟩

/-- C3 (amended): what the resolver silently skips (with no error) is a
target package absent from the metadata package list; a `dep:X` reference
whose `X` is absent from the package's optional dependencies is still
emitted as an `ExternDep` for the `(package, X)` pair, with its source
defaulted to Registry. -/
theorem resolveSkipsAndDefaults :
    (∀ (pkgs : List MetadataPackage) (cn : String) (feats : List String),
        findPkg pkgs cn = none → resolveCrateDeps pkgs cn feats = []) ∧
      (∀ (pkgs : List MetadataPackage) (cn : String) (feats : List String)
          (pkg : MetadataPackage) (X : String),
        findPkg pkgs cn = some pkg →
        (∀ d ∈ pkg.dependencies, d.optional = true → d.name ≠ X) →
        ∀ e ∈ resolveCrateDeps pkgs cn feats, e.pkg_name = X →
          e.source = DepSource.registry) := by
  constructor
  · intro pkgs cn feats h
    unfold resolveCrateDeps
    rw [h]
  · intro pkgs cn feats pkg X hfind hnodep e he hX
    unfold resolveCrateDeps at he
    rw [hfind] at he
    dsimp only at he
    cases hft : pkg.features with
    | none =>
      rw [hft] at he
      simp at he
    | some featTable =>
      rw [hft] at he
      simp only [List.mem_flatMap] at he
      obtain ⟨fn, _, he⟩ := he
      rcases hact : mlookup featTable fn with _ | acts
      · rw [hact] at he
        simp at he
      · rw [hact] at he
        simp only [List.mem_flatMap] at he
        obtain ⟨entry, _, he⟩ := he
        rcases hdep : stripDepColon entry.toList with _ | depName
        · rw [hdep] at he
          simp at he
        · rw [hdep] at he
          simp only [List.mem_singleton] at he
          subst he
          have hXs : String.mk depName = X := hX
          show (lookupLast (depSourceLookup pkg) (String.mk depName)).getD
            DepSource.registry = DepSource.registry
          have hnone : lookupLast (depSourceLookup pkg) (String.mk depName) = none := by
            unfold lookupLast
            rw [mlookup_eq_none_iff]
            intro hmem
            rw [List.map_reverse, List.mem_reverse] at hmem
            obtain ⟨pr, hp, hfst⟩ := List.mem_map.mp hmem
            unfold depSourceLookup at hp
            obtain ⟨d, hd, hpair⟩ := List.mem_map.mp hp
            obtain ⟨hdmem, hdopt⟩ := List.mem_filter.mp hd
            have h1 : d.name = pr.1 := congrArg Prod.fst hpair
            have hname : d.name = X := by
              rw [h1, hfst]
              exact hXs
            exact hnodep d hdmem (by simpa using hdopt) hname
          rw [hnone]
          rfl

/-- C3 (witness): the amended statement at concrete inputs — an absent
package resolves to nothing, and the counterexample's emitted dep has
Registry source. -/
theorem resolveSkipsAndDefaultsWitness :
    resolveCrateDeps [] "P" ["f"] = [] ∧
      (ExternDep.mk "X" "X" DepSource.registry).source = DepSource.registry :=
  ⟨resolveSkipsAndDefaults.1 [] "P" ["f"] (by decide),
    resolveSkipsAndDefaults.2 [MetadataPackage.mk "P" (some [("f", ["dep:X"])]) []] "P" ["f"]
      (MetadataPackage.mk "P" (some [("f", ["dep:X"])]) []) "X" (by decide) (by decide)
      (ExternDep.mk "X" "X" DepSource.registry) (by decide) (by decide)⟩

/-! ## The cache-consistency flag (`xtask_main`, step 3)

`xtask_main` serializes the feature map as
`crate:feat1,feat2;crate2:...`, hashes the serialization with
`std::collections::hash_map::DefaultHasher` — SipHash-1-3 with both keys
zero — and, when the serialization is nonempty, appends
`--cfg=__xfp="<16 hex digits>"` to RUSTFLAGS. -/

/-- Reduction modulo `2 ^ 64` (wrapping `u64` arithmetic). -/
def w64 (n : Nat) : Nat := n % (2 ^ 64)

/-- `u64::rotate_left` for `n < 2 ^ 64`. -/
def rotl64 (n r : Nat) : Nat := w64 ((n <<< r) ||| (n >>> (64 - r)))

/-- One SipHash round. -/
def sipRound : Nat × Nat × Nat × Nat → Nat × Nat × Nat × Nat
  | (v0, v1, v2, v3) =>
    let v0 := w64 (v0 + v1)
    let v1 := rotl64 v1 13
    let v1 := v1 ^^^ v0
    let v0 := rotl64 v0 32
    let v2 := w64 (v2 + v3)
    let v3 := rotl64 v3 16
    let v3 := v3 ^^^ v2
    let v0 := w64 (v0 + v3)
    let v3 := rotl64 v3 21
    let v3 := v3 ^^^ v0
    let v2 := w64 (v2 + v1)
    let v1 := rotl64 v1 17
    let v1 := v1 ^^^ v2
    let v2 := rotl64 v2 32
    (v0, v1, v2, v3)

/-- Compression of one message word: SipHash-1-3 runs one round per
word (`v3 ^= m`, round, `v0 ^= m`). -/
def sipCompress (st : Nat × Nat × Nat × Nat) (m : Nat) : Nat × Nat × Nat × Nat :=
  match st with
  | (v0, v1, v2, v3) =>
    match sipRound (v0, v1, v2, v3 ^^^ m) with
    | (w0, w1, w2, w3) => (w0 ^^^ m, w1, w2, w3)

/-- Little-endian 64-bit word from up to 8 bytes. -/
def leWord : List Nat → Nat
  | [] => 0
  | b :: bs => b + 256 * leWord bs

/-- Feed bytes through the hasher, compressing each full 8-byte block
and keeping the remainder buffered (as the std hasher's tail). -/
def sipFeed (st : Nat × Nat × Nat × Nat) (buf : List Nat) :
    List Nat → (Nat × Nat × Nat × Nat) × List Nat
  | [] => (st, buf)
  | b :: bs =>
    if buf.length = 7 then sipFeed (sipCompress st (leWord (buf ++ [b]))) [] bs
    else sipFeed st (buf ++ [b]) bs

/-- SipHash-1-3 with zero keys (before the final `u64` reinterpretation):
initialize with the zero-key constants, absorb all bytes, compress the
final word `(len & 0xff) << 56 | tail`, xor `0xff` into `v2` and run the
three finalization rounds. -/
def sipHash13Core (bytes : List Nat) : Nat :=
  match sipFeed (0x736f6d6570736575, 0x646f72616e646f6d,
      0x6c7967656e657261, 0x7465646279746573) [] bytes with
  | (st, tail) =>
    match sipCompress st (w64 (((bytes.length % 256) <<< 56) ||| leWord tail)) with
    | (v0, v1, v2, v3) =>
      match sipRound (sipRound (sipRound (v0, v1, v2 ^^^ 0xff, v3))) with
      | (w0, w1, w2, w3) => w0 ^^^ w1 ^^^ w2 ^^^ w3

/-- `DefaultHasher::finish` over a byte stream. -/
def sipHash13 (bytes : List Nat) : Nat := w64 (sipHash13Core bytes)

/-- UTF-8 encoding of one character, as `str::as_bytes` yields it. -/
def utf8Bytes (c : Char) : List Nat :=
  let n := c.toNat
  if n < 0x80 then [n]
  else if n < 0x800 then [0xC0 ||| (n >>> 6), 0x80 ||| (n &&& 0x3F)]
  else if n < 0x10000 then
    [0xE0 ||| (n >>> 12), 0x80 ||| ((n >>> 6) &&& 0x3F), 0x80 ||| (n &&& 0x3F)]
  else
    [0xF0 ||| (n >>> 18), 0x80 ||| ((n >>> 12) &&& 0x3F),
      0x80 ||| ((n >>> 6) &&& 0x3F), 0x80 ||| (n &&& 0x3F)]

/-- The UTF-8 bytes of a string. -/
def strBytes (s : String) : List Nat := s.toList.flatMap utf8Bytes

/-- `DefaultHasher` hash of a string: `Hash for str` writes the UTF-8
bytes followed by a single `0xff` terminator byte, then `finish()`. -/
def defaultHashStr (s : String) : Nat := sipHash13 (strBytes s ++ [0xff])

/-- One lowercase hex digit. -/
def hexDigitChar (n : Nat) : Char :=
  Char.ofNat (if n < 10 then 48 + n else 87 + n)

/-- The `{h:016x}` formatting of a 64-bit value: 16 lowercase hex
digits, most significant nibble first. -/
def hex16 (n : Nat) : String :=
  String.mk ((List.range 16).map (fun i => hexDigitChar ((n >>> (4 * (15 - i))) % 16)))

/-- `features_env`: the feature map serialized as
`crate:feat1,feat2;crate2:...`, in the map's iteration order. -/
def featuresEnv (fm : List (String × List String)) : String :=
  String.intercalate ";" (fm.map (fun p => p.1 ++ ":" ++ String.intercalate "," p.2))

/-- The `__xfp` flag appended to RUSTFLAGS: emitted only when the
serialized feature map is nonempty, carrying the `DefaultHasher` hash of
the serialization as 16 hex digits. -/
def xfpFlag (env : String) : Option String :=
  if env = "" then none
  else some (" --cfg=__xfp=\"" ++ hex16 (defaultHashStr env) ++ "\"")

/-- The RUSTFLAGS value assembled by `xtask_main` step 3 before the final
whitespace trim: the inherited RUSTFLAGS, one `--cfg=xconfig="c"` per
active switch, then the optional `__xfp` flag. -/
def rustflagsStr (inherited : String) (active : List String) (env : String) : String :=
  inherited ++ String.join (active.map (fun c => " --cfg=xconfig=\"" ++ c ++ "\""))
    ++ (xfpFlag env).getD ""

theorem sipHash13_lt (bytes : List Nat) : sipHash13 bytes < 2 ^ 64 := by
  unfold sipHash13 w64
  exact Nat.mod_lt _ (by norm_num)

theorem defaultHashStr_lt (s : String) : defaultHashStr s < 2 ^ 64 :=
  sipHash13_lt _

theorem hexDigitChar_inj : ∀ a < 16, ∀ b < 16,
    hexDigitChar a = hexDigitChar b → a = b := by decide

theorem nibble_ext : ∀ (k a b : Nat), a < 16 ^ k → b < 16 ^ k →
    (∀ i < k, (a >>> (4 * i)) % 16 = (b >>> (4 * i)) % 16) → a = b := by
  intro k
  induction k with
  | zero =>
    intro a b ha hb _
    simp only [pow_zero, Nat.lt_one_iff] at ha hb
    rw [ha, hb]
  | succ k ih =>
    intro a b ha hb h
    have hdiv : ∀ (x i : Nat), x >>> (4 * (i + 1)) = (x / 16) >>> (4 * i) := by
      intro x i
      rw [Nat.shiftRight_eq_div_pow, Nat.shiftRight_eq_div_pow, Nat.div_div_eq_div_mul]
      have he : 4 * (i + 1) = 4 * i + 4 := by ring
      rw [he, pow_add]
      norm_num [mul_comm]
    have h0 : a % 16 = b % 16 := by
      have := h 0 (Nat.succ_pos k)
      simpa using this
    have hrec : a / 16 = b / 16 := by
      apply ih
      · exact (Nat.div_lt_iff_lt_mul (by norm_num)).mpr (by rw [← pow_succ]; exact ha)
      · exact (Nat.div_lt_iff_lt_mul (by norm_num)).mpr (by rw [← pow_succ]; exact hb)
      · intro i hi
        have := h (i + 1) (Nat.succ_lt_succ hi)
        rw [hdiv a i, hdiv b i] at this
        exact this
    calc a = a % 16 + 16 * (a / 16) := (Nat.mod_add_div a 16).symm
      _ = b % 16 + 16 * (b / 16) := by rw [h0, hrec]
      _ = b := Nat.mod_add_div b 16

theorem hex16_inj {a b : Nat} (ha : a < 2 ^ 64) (hb : b < 2 ^ 64)
    (h : hex16 a = hex16 b) : a = b := by
  have hdata : ((List.range 16).map (fun i => hexDigitChar ((a >>> (4 * (15 - i))) % 16))) =
      ((List.range 16).map (fun i => hexDigitChar ((b >>> (4 * (15 - i))) % 16))) :=
    congrArg String.data h
  have hpt : ∀ i, i < 16 →
      hexDigitChar ((a >>> (4 * (15 - i))) % 16) =
        hexDigitChar ((b >>> (4 * (15 - i))) % 16) := by
    intro i hi
    have h1 := congrArg (fun l => l[i]?) hdata
    simp only [List.getElem?_map, List.getElem?_range hi, Option.map_some'] at h1
    exact Option.some.inj h1
  have h16 : (16 : Nat) ^ 16 = 2 ^ 64 := by norm_num
  apply nibble_ext 16 a b (h16 ▸ ha) (h16 ▸ hb)
  intro j hj
  have hij : 15 - (15 - j) = j := by omega
  have hp := hpt (15 - j) (by omega)
  rw [hij] at hp
  exact hexDigitChar_inj _ (Nat.mod_lt _ (by norm_num)) _ (Nat.mod_lt _ (by norm_num)) hp

theorem stringDataInj {s t : String} (h : s.data = t.data) : s = t := by
  cases s
  cases t
  exact congrArg String.mk h

theorem stringAffixInj (pre post : String) {x y : String}
    (h : pre ++ x ++ post = pre ++ y ++ post) : x = y := by
  have hd := congrArg String.data h
  simp only [String.data_append] at hd
  exact stringDataInj (List.append_cancel_left (List.append_cancel_right hd))

/-! ## Claim C1 -/

/-- C1 (counterexample): two runs with the same active set but a changed
mapping table need not differ in the `__xfp` flag: a change confined to a
spec under an inactive switch leaves the resolved feature map empty, so
neither run emits the flag at all — the two runs' flags are equal. -/
theorem xfpFlagUnchangedCounterexample :
    (some [("b", ["crate_c/x"])] : Option (List (String × List String))) ≠
        some [("b", ["crate_c/z"])] ∧
      xfpFlag (featuresEnv (xtaskCollectAll
        [Manifest.mk (some (XPackage.mk (some "crate_a") (some [("b", ["crate_c/x"])])))]
        ["a"])) = none ∧
      xfpFlag (featuresEnv (xtaskCollectAll
        [Manifest.mk (some (XPackage.mk (some "crate_a") (some [("b", ["crate_c/z"])])))]
        ["a"])) = none ∧
      xfpFlag (featuresEnv (xtaskCollectAll
          [Manifest.mk (some (XPackage.mk (some "crate_a") (some [("b", ["crate_c/x"])])))]
          ["a"])) =
        xfpFlag (featuresEnv (xtaskCollectAll
          [Manifest.mk (some (XPackage.mk (some "crate_a") (some [("b", ["crate_c/z"])])))]
          ["a"])) := by
  refine ⟨by decide, by decide, by decide, by decide⟩

/-- C1 (amended): the `__xfp` flag is a function of the serialized
feature map alone: a run whose map serializes empty emits no flag; two
runs whose nonempty serializations have different `DefaultHasher` values
emit different flags — as in the spec scenario, where changing the
mapping `a = ["crate_b/x"]` to `a = ["crate_b/z"]` under the active
switch `a` changes the flag.  A mapping change invisible to the resolved
map (inactive switch, or a bare spec the xtask mapper drops) leaves the
flag unchanged (see the counterexample). -/
theorem xfpFlagCacheConsistency :
    (∀ e : String, e = "" → xfpFlag e = none) ∧
      (∀ e₁ e₂ : String, e₁ ≠ "" → e₂ ≠ "" →
        defaultHashStr e₁ ≠ defaultHashStr e₂ → xfpFlag e₁ ≠ xfpFlag e₂) ∧
      xfpFlag (featuresEnv (xtaskCollectAll
          [Manifest.mk (some (XPackage.mk (some "crate_a") (some [("a", ["crate_b/x"])])))]
          ["a"])) ≠
        xfpFlag (featuresEnv (xtaskCollectAll
          [Manifest.mk (some (XPackage.mk (some "crate_a") (some [("a", ["crate_b/z"])])))]
          ["a"])) := by
  refine ⟨?_, ?_, by decide⟩
  · intro e he
    simp [xfpFlag, he]
  · intro e₁ e₂ h1 h2 hh heq
    unfold xfpFlag at heq
    rw [if_neg h1, if_neg h2] at heq
    exact hh (hex16_inj (defaultHashStr_lt e₁) (defaultHashStr_lt e₂)
      (stringAffixInj " --cfg=__xfp=\"" "\"" (Option.some.inj heq)))

/-- C1 (witness): two concrete nonempty serializations with different
hashes produce different flags. -/
theorem xfpFlagCacheConsistencyWitness :
    xfpFlag "crate_b:x" ≠ xfpFlag "crate_b:z" :=
  xfpFlagCacheConsistency.2.1 "crate_b:x" "crate_b:z" (by decide) (by decide) (by decide)

/-! ## Generated-file projections (`sync_cargo_config`, `sync_vscode_settings`) -/

/-- `str::to_uppercase`, modelled characterwise (ASCII keys). -/
def upperStr (s : String) : String := String.mk (s.toList.map Char.toUpper)

/-- `Path::new(p).parent()` then `display()`: the part before the last
separator, empty when there is none. -/
def parentDir (p : String) : String :=
  match (splitCharList '/' p.toList).dropLast with
  | [] => ""
  | parts => String.intercalate "/" (parts.map String.mk)

/-- The `.cargo/config.toml` content assembled by `sync_cargo_config`:
header comments, then a `[build] rustflags` list holding one `--cfg` flag
per active key, one `--check-cfg` flag per known key plus the `__xfp`
declaration, one `--extern` flag per rlib-map entry in iteration order,
and one `-Ldependency` flag from the first rlib's parent directory. -/
def syncCargoConfigContent (active allKeys : List String)
    (rlibPaths : List (String × String)) : String :=
  let flags : List String :=
    active.map (fun c => "\"--cfg=" ++ upperStr c ++ "\"")
      ++ allKeys.map (fun c => "\"--check-cfg=cfg(" ++ upperStr c ++ ")\"")
      ++ ["\"--check-cfg=cfg(__xfp,values(any()))\""]
      ++ rlibPaths.map (fun p => "\"--extern=" ++ p.1 ++ "=" ++ p.2 ++ "\"")
      ++ (match rlibPaths with
          | [] => []
          | p :: _ => ["\"-Ldependency=" ++ parentDir p.2 ++ "\""])
  "# Auto-generated by cargo-xbuild — do not edit manually.\n"
    ++ "# Run `cargo xbuild` to regenerate after changing .config.toml.\n"
    ++ "\n[build]\nrustflags = [\n    " ++ String.intercalate ", \n    " flags ++ "\n]\n"

/-- The feature list of `sync_vscode_settings`: a `BTreeSet` of
`crate/feat` strings, i.e. the sorted duplicate-free list. -/
def syncVscodeFeatures (fm : List (String × List String)) : List String :=
  (sortStrings (fm.flatMap (fun p => p.2.map (fun f => p.1 ++ "/" ++ f)))).dedup

/-! ## Claim C2 -/

set_option maxRecDepth 4096 in
/-- C2 (counterexample): two resolution passes over identical inputs are
not byte-identical in general: the generated rustflags content and the
serialized environment table follow the hash maps' iteration order, so
observing the same map in two different orders — which two separate
processes may — changes the bytes. -/
theorem generatedFilesDeterminismCounterexample :
    ([("a", "t/liba.rlib"), ("b", "t/libb.rlib")] : List (String × String)).Perm
        [("b", "t/libb.rlib"), ("a", "t/liba.rlib")] ∧
      syncCargoConfigContent ["smp"] ["smp"]
          [("a", "t/liba.rlib"), ("b", "t/libb.rlib")] ≠
        syncCargoConfigContent ["smp"] ["smp"]
          [("b", "t/libb.rlib"), ("a", "t/liba.rlib")] ∧
      ([("crate_b", ["x"]), ("crate_c", ["y"])] : List (String × List String)).Perm
        [("crate_c", ["y"]), ("crate_b", ["x"])] ∧
      featuresEnv [("crate_b", ["x"]), ("crate_c", ["y"])] ≠
        featuresEnv [("crate_c", ["y"]), ("crate_b", ["x"])] := by
  refine ⟨by decide, by decide, by decide, by decide⟩

/-- C2 (amended): the generators are pure functions of their inputs
together with the hash maps' iteration orders, and the artifacts that
sort are order-independent: the editor-settings feature list and the
generated `.config.toml` lines are invariant under permutation of the
underlying map entries.  The rustflags content and the environment-table
serialization follow the maps' arbitrary iteration order (see the
counterexample), so two separate runs need not be byte-identical. -/
theorem generatedFilesOrderInvariance
    (fm₁ fm₂ : List (String × List String)) (defs₁ defs₂ : List (String × XConfigDef))
    (hfm : fm₁.Perm fm₂) (hdefs : defs₁.Perm defs₂)
    (hnd : (defs₁.map Prod.fst).Nodup) :
    syncVscodeFeatures fm₁ = syncVscodeFeatures fm₂ ∧
      ensureConfigLines defs₁ = ensureConfigLines defs₂ := by
  constructor
  · unfold syncVscodeFeatures
    rw [sortStrings_eq_of_perm (hfm.flatMap_right _)]
  · unfold ensureConfigLines
    have hkeys : sortStrings (defs₁.map Prod.fst) = sortStrings (defs₂.map Prod.fst) :=
      sortStrings_eq_of_perm (hdefs.map Prod.fst)
    have hflat : (sortStrings (defs₂.map Prod.fst)).flatMap (fun k =>
        (match defDescription defs₁ k with
         | some d => ["# " ++ d]
         | none => []) ++ [k ++ " = " ++ (if defDefault defs₁ k then "true" else "false")]) =
      (sortStrings (defs₂.map Prod.fst)).flatMap (fun k =>
        (match defDescription defs₂ k with
         | some d => ["# " ++ d]
         | none => []) ++ [k ++ " = " ++ (if defDefault defs₂ k then "true" else "false")]) := by
      apply flatMap_congr
      intro k _
      have hl : mlookup defs₁ k = mlookup defs₂ k := mlookup_eq_of_perm hdefs hnd k
      unfold defDescription defDefault
      rw [hl]
    rw [hkeys, hflat]

/-- C2 (witness): order invariance of the sorted projections at concrete
permuted inputs. -/
theorem generatedFilesOrderInvarianceWitness :
    syncVscodeFeatures [("crate_b", ["x"]), ("crate_c", ["y"])] =
        syncVscodeFeatures [("crate_c", ["y"]), ("crate_b", ["x"])] ∧
      ensureConfigLines [("b", ⟨none, "bool", true⟩), ("a", ⟨none, "bool", false⟩)] =
        ensureConfigLines [("a", ⟨none, "bool", false⟩), ("b", ⟨none, "bool", true⟩)] :=
  generatedFilesOrderInvariance
    [("crate_b", ["x"]), ("crate_c", ["y"])] [("crate_c", ["y"]), ("crate_b", ["x"])]
    [("b", ⟨none, "bool", true⟩), ("a", ⟨none, "bool", false⟩)]
    [("a", ⟨none, "bool", false⟩), ("b", ⟨none, "bool", true⟩)]
    (by decide) (by decide) (by decide)
